import Mathlib

/-!
Verification of the monoscope-go middleware adapters (gorilla and fiber)
against their natural-language specification.

The Go source is shallowly embedded: the `responseRecorder` of
`gorilla/gorilla.go` becomes a state structure with the three methods
`WriteHeader`, `Write` and `StatusCode`; each middleware's per-request
control flow becomes a pure function from the handler's observable
behaviour (the actions it performs, the errors it reports, whether and
with what value it panics) to a trace recording the payloads emitted,
the final error list, the bytes forwarded to the real response channel
and the middleware's outcome. Parts of the core `apt` package that are
not in this repository (payload assembly, error reporting, the redaction
engine) are modelled from the specification and marked as such.
-/

namespace Monoscope

/-- An error record appended to the per-request error list.
Modelled from the spec: `apt.ATError` lives in the core package, absent
from this repository; the spec describes it as an error classification
plus message context, so only the message is kept. -/
structure ATError where
  message : String
deriving Repr, DecidableEq

/-- A Go value recovered from a panic, abstracted to the cases the fiber
recovery block distinguishes: values implementing `error` (`errVal`, and
`runtimeErr` for errors raised by the runtime itself, which also
implement `error`), plain strings, and any other value (represented by
`intVal`). -/
inductive GoValue
  | errVal (msg : String)
  | strVal (s : String)
  | intVal (n : Int)
  | runtimeErr (msg : String)
deriving Repr, DecidableEq

/-- Whether the dynamic type of the value implements Go's `error`
interface (the `err.(error)` type assertion in fiber.go line 64). -/
def GoValue.isError : GoValue → Bool
  | .errVal _ => true
  | .runtimeErr _ => true
  | _ => false

/-- Whether the value is a plain Go string (the `err.(string)` type
assertion in fiber.go line 65). -/
def GoValue.isString : GoValue → Bool
  | .strVal _ => true
  | _ => false

/-- The message of the `error` that the fiber recovery reports and
re-raises for this panic value (after `errors.New` conversion for
strings). Unused for values that are neither errors nor strings. -/
def GoValue.panicMsg : GoValue → String
  | .errVal m => m
  | .runtimeErr m => m
  | .strVal s => s
  | .intVal _ => ""

/-- Middleware configuration (gorilla.go lines 21-31, fiber.go lines
16-26; the two structs are field-for-field identical). -/
structure Config where
  debug : Bool
  serviceVersion : String
  serviceName : String
  redactHeaders : List String
  redactRequestBody : List String
  redactResponseBody : List String
  tags : List String
  captureRequestBody : Bool
  captureResponseBody : Bool
deriving Repr

/-- The telemetry record assembled once per request.
Modelled from the spec: `apt.BuildPayload` / `apt.BuildFastHTTPPayload`
live in the core package, absent from this repository; the fields kept
are the arguments the middlewares pass at the call sites (gorilla.go
lines 93-103, fiber.go lines 68-78 and 85-95) that the claims mention:
status code, captured bodies, response headers, error-list snapshot,
message id and the producing-SDK tag. A `none` body mirrors a nil Go
slice (no capture). -/
structure Payload where
  sdkType : String
  statusCode : Int
  reqBody : Option (List Nat)
  respBody : Option (List Nat)
  respHeaders : List (String × List String)
  errors : List ATError
  msgID : Nat
deriving Repr, DecidableEq

/-- How one middleware invocation terminates: a normal return (carrying
the fiber handler's error value, `none` for gorilla handlers which
return nothing) or a propagating panic. -/
inductive MWOutcome
  | returns (err : Option String)
  | panics (v : GoValue)
deriving Repr, DecidableEq

/-! ### The response recorder (gorilla.go lines 109-146) -/

/-- An abstract underlying `http.ResponseWriter`: a state type `σ` with
a header-write operation and a body-write operation returning the
written count and a possible error, exactly the shape of the interface
the recorder wraps. -/
structure Underlying (σ : Type) where
  writeHeaderU : σ → Int → σ
  writeU : σ → List Nat → σ × Int × Option String

/-- State of `responseRecorder` (gorilla.go lines 112-118): the wrapped
writer's state, the buffered body, the recorded status code (Go zero
value 0 before any record), the `status` flag and the `captureBody`
flag. -/
structure Recorder (σ : Type) where
  wr : σ
  body : List Nat
  statusCode : Int
  status : Bool
  captureBody : Bool

/-- A recorder as freshly installed by the middleware (gorilla.go line
68): empty buffer, zero status code, flags cleared. -/
def freshRecorder (σ : Type) (cap : Bool) (s0 : σ) : Recorder σ :=
  { wr := s0, body := [], statusCode := 0, status := false, captureBody := cap }

/-- `responseRecorder.WriteHeader` (gorilla.go lines 121-127): only when
no status has been recorded yet, record it and forward it to the real
writer; otherwise do nothing at all. -/
def recWriteHeader {σ : Type} (u : Underlying σ) (r : Recorder σ) (code : Int) : Recorder σ :=
  if !r.status then
    { r with status := true, statusCode := code, wr := u.writeHeaderU r.wr code }
  else r

/-- `responseRecorder.Write` (gorilla.go lines 130-138): buffer the
bytes when `captureBody` is set, fix status 200 via `WriteHeader` if no
status was recorded, then forward the bytes to the real writer and
return its result. -/
def recWrite {σ : Type} (u : Underlying σ) (r : Recorder σ) (b : List Nat) :
    Recorder σ × Int × Option String :=
  let r1 := if r.captureBody then { r with body := r.body ++ b } else r
  let r2 := if !r1.status then recWriteHeader u r1 200 else r1
  let res := u.writeU r2.wr b
  ({ r2 with wr := res.1 }, res.2)

/-- `responseRecorder.StatusCode` (gorilla.go lines 141-146): default a
never-recorded (zero) status to 200. -/
def recStatusCode {σ : Type} (r : Recorder σ) : Int :=
  if r.statusCode = 0 then 200 else r.statusCode

/-- One observable call a handler makes on the response writer handed to
it: an explicit status set (`WriteHeader`) or a body write (`Write`). -/
inductive HAction
  | writeHeader (code : Int)
  | write (b : List Nat)
deriving Repr, DecidableEq

/-- Whether the action is an explicit status-set call. -/
def HAction.isStatusSet : HAction → Bool
  | .writeHeader _ => true
  | _ => false

/-- Run a sequence of handler actions against the recorder. -/
def runActions {σ : Type} (u : Underlying σ) (r : Recorder σ) : List HAction → Recorder σ
  | [] => r
  | .writeHeader c :: rest => runActions u (recWriteHeader u r c) rest
  | .write b :: rest => runActions u (recWrite u r b).1 rest

/-- An event on the real response channel: a forwarded status write or a
forwarded body write. -/
inductive WireEvent
  | hdr (code : Int)
  | dat (b : List Nat)
deriving Repr, DecidableEq

/-- The concrete underlying writer used to observe wire behaviour: it
logs every forwarded call and reports a full successful write, as
`httptest.ResponseRecorder` does. -/
def logUnder : Underlying (List WireEvent) :=
  { writeHeaderU := fun s c => s ++ [.hdr c]
    writeU := fun s b => (s ++ [.dat b], (b.length : Int), none) }

/-- The status codes forwarded to the real channel, in order. -/
def hdrCodes (w : List WireEvent) : List Int :=
  w.filterMap fun e => match e with | .hdr c => some c | _ => none

/-- The body chunks forwarded to the real channel, in order. -/
def datChunks (w : List WireEvent) : List (List Nat) :=
  w.filterMap fun e => match e with | .dat b => some b | _ => none

/-- The body chunks a handler action list writes, in order. -/
def writesOf (as : List HAction) : List (List Nat) :=
  as.filterMap fun a => match a with | .write b => some b | _ => none

/-! ### The gorilla middleware (gorilla.go lines 43-107) -/

/-- A request body as an `io.Reader`: the bytes readable before the
stream ends, and `none` for a clean EOF or `some e` for a read error
reported after that prefix. -/
structure BodySource where
  data : List Nat
  readErr : Option String
deriving Repr, DecidableEq

/-- `io.ReadAll` on a `BodySource`: returns the readable prefix together
with the error, if any, that ended the read. -/
def readAll (b : BodySource) : List Nat × Option String :=
  (b.data, b.readErr)

/-- The observable behaviour of a gorilla handler as a function of the
bytes it can read from the request body: the calls it makes on the
response writer, the errors it reports via `apt.ReportError`, and the
value it panics with, if it panics (after performing the actions). -/
structure GorillaHandlerRun where
  actions : List HAction
  reported : List ATError
  panicValue : Option GoValue
deriving Repr

/-- The observable trace of one gorilla middleware invocation. -/
structure GorillaTrace where
  payloads : List Payload
  errorList : List ATError
  handlerBytes : List Nat
  handlerInvoked : Bool
  recBody : List Nat
  wire : List WireEvent
  outcome : MWOutcome
  spanEnded : Bool
deriving Repr

/-- The gorilla `Middleware` per-request flow (gorilla.go lines 45-105):
start a span (ended by `defer` in every case), create the message id and
empty error list, optionally read and restore the request body
(reporting a read error and handing the handler the buffered prefix),
run the handler through a fresh `responseRecorder`, and on normal return
build one payload from the recorder's status, the optional captured
bodies and the error-list snapshot and attach it to the span. There is
no `recover` in this middleware: a handler panic propagates before
`BuildPayload`/`CreateSpan` are reached, so no payload is produced.
`apt.ReportError` is modelled from the spec (the core package is absent
from this repository): it appends an `ATError` to the request's error
list found in the context. -/
def gorillaMiddleware (cfg : Config) (reqBody : BodySource)
    (handler : List Nat → GorillaHandlerRun) (msgID : Nat) : GorillaTrace :=
  let readRes := readAll reqBody
  let reqBuf : Option (List Nat) := if cfg.captureRequestBody then some readRes.1 else none
  let errs0 : List ATError :=
    if cfg.captureRequestBody then
      match readRes.2 with
      | some e => [⟨e⟩]
      | none => []
    else []
  let handlerBody : BodySource :=
    if cfg.captureRequestBody then ⟨readRes.1, none⟩ else reqBody
  let hb := (readAll handlerBody).1
  let run := handler hb
  let errs1 := errs0 ++ run.reported
  let recf := runActions logUnder (freshRecorder _ cfg.captureResponseBody []) run.actions
  match run.panicValue with
  | some v =>
    { payloads := [], errorList := errs1, handlerBytes := hb, handlerInvoked := true,
      recBody := recf.body, wire := recf.wr, outcome := .panics v, spanEnded := true }
  | none =>
    let resBody : Option (List Nat) := if cfg.captureResponseBody then some recf.body else none
    let p : Payload :=
      { sdkType := "GoGorillaMux", statusCode := recStatusCode recf,
        reqBody := reqBuf, respBody := resBody, respHeaders := [],
        errors := errs1, msgID := msgID }
    { payloads := [p], errorList := errs1, handlerBytes := hb, handlerInvoked := true,
      recBody := recf.body, wire := recf.wr, outcome := .returns none, spanEnded := true }

/-! ### The fiber middleware (fiber.go lines 42-100) -/

/-- The observable behaviour of a fiber handler chain (`ctx.Next()`):
the errors it reports, the response headers it sets during execution,
the response status code after it ran, the error value it returns, and
the value it panics with, if it panics. -/
structure FiberHandlerRun where
  reported : List ATError
  setHeaders : List (String × List String)
  statusAfter : Int
  retErr : Option String
  panicValue : Option GoValue
deriving Repr

/-- The observable trace of one fiber middleware invocation. -/
structure FiberTrace where
  payloads : List Payload
  errorList : List ATError
  outcome : MWOutcome
  spanEnded : Bool
deriving Repr

/-- The message of the runtime panic raised by a failing `err.(string)`
type assertion (fiber.go line 65) on a value that is neither an error
nor a string. -/
def typeAssertionMsg : String := "interface conversion"

/-- The fiber `Middleware` per-request flow (fiber.go lines 43-99):
start a span (ended by `defer` in every case), register the message id
and empty error list, copy the response headers into a fresh map
*before* the handler runs (lines 57-60), then call `ctx.Next()` under a
deferred recovery (lines 62-82). On normal return, one payload is built
with the response's status code, the header snapshot and the error-list
snapshot, and the handler's error is returned unchanged. On panic: a
value implementing `error` is reported, one payload with status 500 is
built, and the same value is re-raised; a plain string `s` is converted
by `errors.New(s)`, reported, the payload built, and the *converted
error* re-raised; any other value makes the `err.(string)` assertion in
the recovery itself panic with a runtime type-assertion error before
any telemetry is emitted. `apt.ReportError` and
`apt.BuildFastHTTPPayload` are modelled from the spec (the core package
is absent from this repository). -/
def fiberMiddleware (_cfg : Config) (respHeaders0 : List (String × List String))
    (reqBody resBody : List Nat) (run : FiberHandlerRun) (msgID : Nat) : FiberTrace :=
  let snapshot := respHeaders0
  match run.panicValue with
  | none =>
    let p : Payload :=
      { sdkType := "GoFiberSDKType", statusCode := run.statusAfter,
        reqBody := some reqBody, respBody := some resBody, respHeaders := snapshot,
        errors := run.reported, msgID := msgID }
    { payloads := [p], errorList := run.reported,
      outcome := .returns run.retErr, spanEnded := true }
  | some v =>
    if v.isError || v.isString then
      let errs := run.reported ++ [⟨v.panicMsg⟩]
      let p : Payload :=
        { sdkType := "GoFiberSDKType", statusCode := 500,
          reqBody := some reqBody, respBody := some resBody, respHeaders := snapshot,
          errors := errs, msgID := msgID }
      let reraised : GoValue := if v.isError then v else .errVal v.panicMsg
      { payloads := [p], errorList := errs,
        outcome := .panics reraised, spanEnded := true }
    else
      { payloads := [], errorList := run.reported,
        outcome := .panics (.runtimeErr typeAssertionMsg), spanEnded := true }

/-- Look up a header by exact name in a header map. -/
def hlookup (k : String) (hs : List (String × List String)) : Option (List String) :=
  (hs.find? fun p => p.1 = k).map fun p => p.2

/-! ### The structured-field redaction engine

Modelled from the spec: the redaction engine lives in the core `apt`
package, absent from this repository. Per the spec, a captured body is
parsed as structured (JSON-like) data; if parsing fails the body is left
untouched and redaction is a no-op; if it succeeds, every value at a
matching field path (dot addressing into objects, e.g. `$.password`,
`$.user.credit_card`) is replaced by a fixed redaction marker, key
presence preserved. -/

/-- A JSON-like structured value. -/
inductive JVal
  | jnull
  | jbool (b : Bool)
  | jnum (n : Int)
  | jstr (s : String)
  | jarr (xs : List JVal)
  | jobj (fields : List (String × JVal))
deriving Repr

/-- The fixed marker substituted for redacted values.
Modelled from the spec: a fixed redaction marker. -/
def redactMarker : String := "[CLIENT_REDACTED]"

/-- Replace the value at one field path (a list of object keys, the
parsed form of `$.k1.k2...`) with the redaction marker. A path segment
applied to a non-object value matches nothing and leaves the value
untouched. Modelled from the spec. -/
def redactPath (p : List String) (v : JVal) : JVal :=
  match p, v with
  | [], _ => .jstr redactMarker
  | k :: ks, .jobj fields =>
      .jobj (fields.map fun f => if f.1 = k then (f.1, redactPath ks f.2) else f)
  | _ :: _, v => v

/-- Apply a whole set of redaction paths to a structured value.
Modelled from the spec. -/
def redactAll (paths : List (List String)) (v : JVal) : JVal :=
  paths.foldl (fun acc p => redactPath p acc) v

/-- A captured body, after the parse attempt the spec describes:
either unparseable raw bytes or a parsed structured value. -/
inductive CapturedBody
  | unparsed (bytes : List Nat)
  | parsed (v : JVal)
deriving Repr

/-- Structured-field redaction of a captured body: a no-op on a body
that failed to parse, `redactAll` on a parsed one.
Modelled from the spec. -/
def redactBody (paths : List (List String)) : CapturedBody → CapturedBody
  | .unparsed bs => .unparsed bs
  | .parsed v => .parsed (redactAll paths v)

/-! ## Recorder lemmas -/

/-- Running actions that never set a status keeps the recorded code in
the set a fresh recorder can reach without one: 0 or the 200 fixed by a
first body write. -/
theorem statusCode_no_statusSet {σ : Type} (u : Underlying σ) (as : List HAction)
    (r : Recorder σ) (h : as.all (fun a => !a.isStatusSet) = true)
    (hr : r.statusCode = 0 ∨ r.statusCode = 200) :
    (runActions u r as).statusCode = 0 ∨ (runActions u r as).statusCode = 200 := by
  induction as generalizing r with
  | nil => exact hr
  | cons a rest ih =>
    cases a with
    | writeHeader c => simp [HAction.isStatusSet] at h
    | write b =>
      rw [List.all_cons] at h
      simp only [HAction.isStatusSet, Bool.not_false, Bool.true_and] at h
      refine ih _ h ?_
      by_cases hcap : r.captureBody <;> by_cases hs : r.status <;>
        simp [recWrite, recWriteHeader, hcap, hs, hr]

/-- A recorder that has already recorded a status ignores later
status-set calls and keeps its code, flag and capture mode. -/
theorem runActions_steady {σ : Type} (u : Underlying σ) (as : List HAction)
    (r : Recorder σ) (h : r.status = true) :
    (runActions u r as).status = true ∧
    (runActions u r as).statusCode = r.statusCode ∧
    (runActions u r as).captureBody = r.captureBody := by
  induction as generalizing r with
  | nil => exact ⟨h, rfl, rfl⟩
  | cons a rest ih =>
    cases a with
    | writeHeader c =>
      have : recWriteHeader u r c = r := by simp [recWriteHeader, h]
      simpa [runActions, this] using ih r h
    | write b =>
      by_cases hcap : r.captureBody <;>
        simpa [runActions, recWrite, recWriteHeader, h, hcap] using
          ih _ (by simp [h, hcap])

/-- A recorder with body capture off never buffers anything. -/
theorem runActions_body_off {σ : Type} (u : Underlying σ) (as : List HAction)
    (r : Recorder σ) (h : r.captureBody = false) :
    (runActions u r as).body = r.body := by
  induction as generalizing r with
  | nil => rfl
  | cons a rest ih =>
    cases a with
    | writeHeader c =>
      by_cases hs : r.status <;>
        simpa [runActions, recWriteHeader, hs] using ih _ (by simp [recWriteHeader, hs, h])
    | write b =>
      by_cases hs : r.status <;>
        simpa [runActions, recWrite, recWriteHeader, h, hs] using
          ih _ (by simp [recWrite, recWriteHeader, h, hs])

/-- Appending a header event does not change the forwarded data chunks. -/
theorem datChunks_append_hdr (w : List WireEvent) (c : Int) :
    datChunks (w ++ [.hdr c]) = datChunks w := by
  simp [datChunks, List.filterMap_append]

/-- Appending a data event appends its chunk. -/
theorem datChunks_append_dat (w : List WireEvent) (b : List Nat) :
    datChunks (w ++ [.dat b]) = datChunks w ++ [b] := by
  simp [datChunks, List.filterMap_append]

/-- Every byte chunk a handler writes is forwarded to the real response
channel, in order, whatever the recorder's state. -/
theorem runActions_forwards_writes (as : List HAction) (r : Recorder (List WireEvent)) :
    datChunks (runActions logUnder r as).wr = datChunks r.wr ++ writesOf as := by
  induction as generalizing r with
  | nil => simp [runActions, writesOf]
  | cons a rest ih =>
    cases a with
    | writeHeader c =>
      rw [runActions, ih]
      by_cases hs : r.status <;>
        simp [recWriteHeader, hs, logUnder, datChunks, List.filterMap_append, writesOf]
    | write b =>
      rw [runActions, ih]
      by_cases hs : r.status <;> by_cases hcap : r.captureBody <;>
        simp [recWrite, recWriteHeader, hs, hcap, logUnder, datChunks,
          List.filterMap_append, writesOf]

/-- Once a status is recorded, no further header event reaches the real
channel. -/
theorem runActions_no_more_hdrs (as : List HAction) (r : Recorder (List WireEvent))
    (h : r.status = true) :
    hdrCodes (runActions logUnder r as).wr = hdrCodes r.wr := by
  induction as generalizing r with
  | nil => rfl
  | cons a rest ih =>
    cases a with
    | writeHeader c =>
      have : recWriteHeader logUnder r c = r := by simp [recWriteHeader, h]
      simpa [runActions, this] using ih r h
    | write b =>
      rw [runActions,
        ih _ (by by_cases hcap : r.captureBody <;> simp [recWrite, recWriteHeader, h, hcap])]
      by_cases hcap : r.captureBody <;>
        simp [recWrite, recWriteHeader, h, hcap, logUnder, hdrCodes, List.filterMap_append]

/-! ## Claims about the response recorder -/

/-- C4: for every execution in which the handler writes body bytes
without an explicit status-set call, and also for every execution in
which neither bytes nor a status are written, the response recorder
reports status code 200. -/
theorem recorder_defaults_to_200 {σ : Type} (u : Underlying σ) (cap : Bool) (s0 : σ)
    (as : List HAction) (h : as.all (fun a => !a.isStatusSet) = true) :
    recStatusCode (runActions u (freshRecorder σ cap s0) as) = 200 := by
  rcases statusCode_no_statusSet u as (freshRecorder σ cap s0) h (Or.inl rfl) with h0 | h2
  · simp [recStatusCode, h0]
  · simp [recStatusCode, h2]

/-- Witness for C4: a handler that writes bytes and never sets a status
is reported as 200. -/
theorem recorder_defaults_to_200_witness :
    ([HAction.write [104, 105]].all (fun a => !a.isStatusSet) = true) ∧
    recStatusCode (runActions logUnder (freshRecorder (List WireEvent) true [])
      [HAction.write [104, 105]]) = 200 :=
  ⟨by decide, recorder_defaults_to_200 logUnder true [] [HAction.write [104, 105]] (by decide)⟩

/-- C5 counterexample: after an explicit status-set of 201, a second
status-set of 500 is not forwarded to the real response channel — only
201 ever reaches it — refuting that the underlying write is forwarded
for every status-set call. -/
theorem second_statusSet_not_forwarded :
    (runActions logUnder (freshRecorder (List WireEvent) true [])
        [HAction.writeHeader 201, HAction.writeHeader 500]).statusCode = 201 ∧
    hdrCodes (runActions logUnder (freshRecorder (List WireEvent) true [])
        [HAction.writeHeader 201, HAction.writeHeader 500]).wr = [201] ∧
    (500 : Int) ∉ hdrCodes (runActions logUnder (freshRecorder (List WireEvent) true [])
        [HAction.writeHeader 201, HAction.writeHeader 500]).wr := by
  decide

/-- C5 (amended): when the first recorder call is a status-set with code
`c`, the recorded status is `c`, subsequent status-set calls are ignored
entirely — neither recorded nor forwarded, so exactly one status, `c`,
reaches the real channel — while every body write is still forwarded
untouched. -/
theorem first_statusSet_wins (cap : Bool) (c : Int) (rest : List HAction)
    (as : List HAction) (h : as = HAction.writeHeader c :: rest) :
    (runActions logUnder (freshRecorder (List WireEvent) cap []) as).statusCode = c ∧
    hdrCodes (runActions logUnder (freshRecorder (List WireEvent) cap []) as).wr = [c] ∧
    datChunks (runActions logUnder (freshRecorder (List WireEvent) cap []) as).wr =
      writesOf as := by
  subst h
  have hstep : recWriteHeader logUnder (freshRecorder (List WireEvent) cap []) c =
      { wr := [.hdr c], body := [], statusCode := c, status := true, captureBody := cap } := by
    simp [recWriteHeader, freshRecorder, logUnder]
  refine ⟨?_, ?_, ?_⟩
  · rw [runActions, hstep]
    exact (runActions_steady logUnder rest _ rfl).2.1
  · rw [runActions, hstep, runActions_no_more_hdrs rest _ rfl]
    simp [hdrCodes]
  · rw [runActions, hstep, runActions_forwards_writes rest _]
    simp [datChunks, writesOf]

/-- Witness for C5 (amended): status-set 201 followed by a body write
records 201, forwards only 201 as a status, and forwards the write. -/
theorem first_statusSet_wins_witness :
    ([HAction.writeHeader 201, HAction.write [111]] =
      HAction.writeHeader 201 :: [HAction.write [111]]) ∧
    ((runActions logUnder (freshRecorder (List WireEvent) false [])
        [HAction.writeHeader 201, HAction.write [111]]).statusCode = 201 ∧
     hdrCodes (runActions logUnder (freshRecorder (List WireEvent) false [])
        [HAction.writeHeader 201, HAction.write [111]]).wr = [201] ∧
     datChunks (runActions logUnder (freshRecorder (List WireEvent) false [])
        [HAction.writeHeader 201, HAction.write [111]]).wr =
       writesOf [HAction.writeHeader 201, HAction.write [111]]) :=
  ⟨rfl, first_statusSet_wins false 201 [HAction.write [111]] _ rfl⟩

/-! ## Claims about the middleware control flow -/

/-- A sample configuration with both captures enabled. -/
def cfgEx : Config :=
  { debug := false, serviceVersion := "0.0.1", serviceName := "svc",
    redactHeaders := [], redactRequestBody := [], redactResponseBody := [],
    tags := [], captureRequestBody := true, captureResponseBody := true }

/-- A sample request body that reads cleanly. -/
def bEx : BodySource := ⟨[123, 125], none⟩

/-- A gorilla handler that panics with the string "boom". -/
def hPanicEx : List Nat → GorillaHandlerRun :=
  fun _ => ⟨[], [], some (.strVal "boom")⟩

/-- A fiber handler run that panics with the string "boom". -/
def runStrEx : FiberHandlerRun := ⟨[], [], 200, none, some (.strVal "boom")⟩

/-- A fiber handler run that panics with the integer 7. -/
def runIntEx : FiberHandlerRun := ⟨[], [], 200, none, some (.intVal 7)⟩

/-- C1 counterexample: a gorilla request whose handler panics produces
no payload at all — not exactly one — because the gorilla middleware has
no recovery and the panic propagates before `BuildPayload` runs. -/
theorem gorilla_panic_no_payload :
    (hPanicEx bEx.data).panicValue.isSome = true ∧
    (gorillaMiddleware cfgEx bEx hPanicEx 0).payloads = [] :=
  ⟨rfl, rfl⟩

/-- C1 (amended): per request, exactly one payload is produced and
attached to the span when the handler returns normally, by both
middlewares; on a handler panic the gorilla middleware produces none,
and the fiber middleware produces exactly one when the panic value is an
error or a string and none otherwise; the span is ended in every case. -/
theorem one_payload_per_request (cfg : Config) (b : BodySource)
    (h : List Nat → GorillaHandlerRun) (mid : Nat)
    (hdrs : List (String × List String)) (rb sb : List Nat) (run : FiberHandlerRun) :
    ((gorillaMiddleware cfg b h mid).payloads.length =
      match (h b.data).panicValue with
      | none => 1
      | some _ => 0) ∧
    (gorillaMiddleware cfg b h mid).spanEnded = true ∧
    ((fiberMiddleware cfg hdrs rb sb run mid).payloads.length =
      match run.panicValue with
      | none => 1
      | some v => if v.isError || v.isString then 1 else 0) ∧
    (fiberMiddleware cfg hdrs rb sb run mid).spanEnded = true := by
  refine ⟨?_, ?_, ?_, ?_⟩
  · cases hpv : (h b.data).panicValue <;> by_cases hc : cfg.captureRequestBody <;>
      simp [gorillaMiddleware, readAll, hpv, hc]
  · cases hpv : (h b.data).panicValue <;> by_cases hc : cfg.captureRequestBody <;>
      simp [gorillaMiddleware, readAll, hpv, hc]
  · cases hpv : run.panicValue with
    | none => simp [fiberMiddleware, hpv]
    | some v =>
      by_cases hv : (v.isError || v.isString) = true <;>
        simp [fiberMiddleware, hpv, hv]
  · cases hpv : run.panicValue with
    | none => simp [fiberMiddleware, hpv]
    | some v =>
      by_cases hv : (v.isError || v.isString) = true <;>
        simp [fiberMiddleware, hpv, hv]

/-- C2 counterexample: a fiber handler that panics with the plain string
"boom" makes the middleware re-raise an error value built from that
string — the outer recovery layer observes a value different from the
one the handler panicked with. -/
theorem string_panic_value_changed :
    runStrEx.panicValue = some (.strVal "boom") ∧
    (fiberMiddleware cfgEx [] [] [] runStrEx 0).outcome = .panics (.errVal "boom") ∧
    GoValue.errVal "boom" ≠ GoValue.strVal "boom" :=
  ⟨rfl, rfl, by decide⟩

/-- C2 (amended): the fiber middleware never suppresses a panic, but the
re-raised value is the original only when that value implements error; a
string panic is re-raised, after telemetry, as an error built from the
string; any other panic value makes the recovery's own type assertion
panic with a runtime error before telemetry is emitted. -/
theorem panic_reraise (cfg : Config) (hdrs : List (String × List String))
    (rb sb : List Nat) (run : FiberHandlerRun) (mid : Nat) (v : GoValue)
    (hpv : run.panicValue = some v) :
    (∃ w, (fiberMiddleware cfg hdrs rb sb run mid).outcome = .panics w) ∧
    (v.isError = true →
      (fiberMiddleware cfg hdrs rb sb run mid).outcome = .panics v ∧
      (fiberMiddleware cfg hdrs rb sb run mid).payloads.length = 1) ∧
    (∀ s, v = .strVal s →
      (fiberMiddleware cfg hdrs rb sb run mid).outcome = .panics (.errVal s) ∧
      (fiberMiddleware cfg hdrs rb sb run mid).payloads.length = 1) ∧
    (∀ n, v = .intVal n →
      (fiberMiddleware cfg hdrs rb sb run mid).outcome =
        .panics (.runtimeErr typeAssertionMsg) ∧
      (fiberMiddleware cfg hdrs rb sb run mid).payloads = []) := by
  cases v <;>
    simp [fiberMiddleware, hpv, GoValue.isError, GoValue.isString, GoValue.panicMsg]

/-- Witness for C2 (amended): at the concrete string-panic run, the
middleware panics with the converted error and emits one payload. -/
theorem panic_reraise_witness :
    runStrEx.panicValue = some (.strVal "boom") ∧
    ((fiberMiddleware cfgEx [] [] [] runStrEx 0).outcome = .panics (.errVal "boom") ∧
     (fiberMiddleware cfgEx [] [] [] runStrEx 0).payloads.length = 1) :=
  ⟨rfl, (panic_reraise cfgEx [] [] [] runStrEx 0 (.strVal "boom") rfl).2.2.1 "boom" rfl⟩

/-- C3 counterexample: a fiber handler panic with the integer 7 —
neither an error nor a string — yields no payload at all and leaves the
error list untouched, so no payload carrying status 500 and no
panic-derived error entry exists for that request. -/
theorem int_panic_no_payload :
    runIntEx.panicValue = some (.intVal 7) ∧
    (fiberMiddleware cfgEx [] [] [] runIntEx 0).payloads = [] ∧
    (fiberMiddleware cfgEx [] [] [] runIntEx 0).errorList = [] :=
  ⟨rfl, rfl, rfl⟩

/-- C3 (amended): when the fiber handler panics with a value that is an
error or a string, the payload built for the request carries status 500
regardless of the status observed earlier, and its error-list snapshot
is the handler's reported errors extended by exactly one entry derived
from the panic value. -/
theorem panic_payload_500 (cfg : Config) (hdrs : List (String × List String))
    (rb sb : List Nat) (run : FiberHandlerRun) (mid : Nat) (v : GoValue)
    (hpv : run.panicValue = some v) (hv : (v.isError || v.isString) = true) :
    ∃ p, (fiberMiddleware cfg hdrs rb sb run mid).payloads = [p] ∧
      p.statusCode = 500 ∧
      p.errors = run.reported ++ [⟨v.panicMsg⟩] := by
  simp only [fiberMiddleware, hpv, hv, if_true]
  exact ⟨_, rfl, rfl, rfl⟩

/-- Witness for C3 (amended): the concrete string-panic run yields one
payload with status 500 and exactly the panic-derived error entry. -/
theorem panic_payload_500_witness :
    runStrEx.panicValue = some (.strVal "boom") ∧
    ((GoValue.strVal "boom").isError || (GoValue.strVal "boom").isString) = true ∧
    ∃ p, (fiberMiddleware cfgEx [] [] [] runStrEx 0).payloads = [p] ∧
      p.statusCode = 500 ∧
      p.errors = runStrEx.reported ++ [⟨(GoValue.strVal "boom").panicMsg⟩] :=
  ⟨rfl, rfl, panic_payload_500 cfgEx [] [] [] runStrEx 0 (.strVal "boom") rfl rfl⟩

/-- C6: the bytes the downstream handler reads from the request body are
the same whether request-body capture is enabled or disabled. -/
theorem capture_transparent (cfg : Config) (b : BodySource)
    (h : List Nat → GorillaHandlerRun) (mid : Nat) :
    (gorillaMiddleware { cfg with captureRequestBody := true } b h mid).handlerBytes =
    (gorillaMiddleware { cfg with captureRequestBody := false } b h mid).handlerBytes := by
  cases hpv : (h b.data).panicValue <;>
    simp [gorillaMiddleware, readAll, hpv]

/-- C7: with response-body capture disabled, the recorder buffers
nothing, every chunk the handler writes is still forwarded to the real
channel, the payload carries no response body, and `Write`'s return
value is exactly the underlying writer's result for those bytes. -/
theorem capture_off_not_buffered (cfg : Config) (b : BodySource)
    (h : List Nat → GorillaHandlerRun) (mid : Nat)
    (hcap : cfg.captureResponseBody = false) :
    (gorillaMiddleware cfg b h mid).recBody = [] ∧
    datChunks (gorillaMiddleware cfg b h mid).wire = writesOf (h b.data).actions ∧
    (∀ p ∈ (gorillaMiddleware cfg b h mid).payloads, p.respBody = none) ∧
    (∀ (σ : Type) (u : Underlying σ) (r : Recorder σ) (bs : List Nat),
      r.captureBody = false →
      ∃ s, (recWrite u r bs).2 = (u.writeU s bs).2 ∧
        (recWrite u r bs).1.wr = (u.writeU s bs).1 ∧
        (s = r.wr ∨ s = u.writeHeaderU r.wr 200)) := by
  have hrec : ∀ as : List HAction,
      (runActions logUnder (freshRecorder (List WireEvent) cfg.captureResponseBody []) as).body
        = [] := by
    intro as
    rw [hcap]
    exact runActions_body_off logUnder as _ rfl
  have hfw : ∀ as : List HAction,
      datChunks
        (runActions logUnder (freshRecorder (List WireEvent) cfg.captureResponseBody []) as).wr
        = writesOf as := by
    intro as
    rw [runActions_forwards_writes]
    simp [freshRecorder, datChunks]
  refine ⟨?_, ?_, ?_, ?_⟩
  · cases hpv : (h b.data).panicValue <;> by_cases hc : cfg.captureRequestBody <;>
      simp [gorillaMiddleware, readAll, hpv, hc, hrec]
  · cases hpv : (h b.data).panicValue <;> by_cases hc : cfg.captureRequestBody <;>
      simp [gorillaMiddleware, readAll, hpv, hc, hfw]
  · cases hpv : (h b.data).panicValue <;> by_cases hc : cfg.captureRequestBody <;>
      simp [gorillaMiddleware, readAll, hpv, hc, hcap]
  · intro σ u r bs hr
    by_cases hs : r.status
    · exact ⟨r.wr, by simp [recWrite, recWriteHeader, hr, hs],
        by simp [recWrite, recWriteHeader, hr, hs], Or.inl rfl⟩
    · exact ⟨u.writeHeaderU r.wr 200, by simp [recWrite, recWriteHeader, hr, hs],
        by simp [recWrite, recWriteHeader, hr, hs], Or.inr rfl⟩

/-- A configuration with response-body capture disabled. -/
def cfgOffEx : Config := { cfgEx with captureResponseBody := false }

/-- A gorilla handler that writes one chunk and returns normally. -/
def hWriteEx : List Nat → GorillaHandlerRun :=
  fun _ => ⟨[.write [79, 75]], [], none⟩

/-- Witness for C7: with capture off, the concrete run buffers nothing,
forwards the handler's chunk, and its payload has no response body. -/
theorem capture_off_not_buffered_witness :
    cfgOffEx.captureResponseBody = false ∧
    (gorillaMiddleware cfgOffEx bEx hWriteEx 0).recBody = [] ∧
    datChunks (gorillaMiddleware cfgOffEx bEx hWriteEx 0).wire =
      writesOf (hWriteEx bEx.data).actions ∧
    (∀ p ∈ (gorillaMiddleware cfgOffEx bEx hWriteEx 0).payloads, p.respBody = none) :=
  ⟨rfl, (capture_off_not_buffered cfgOffEx bEx hWriteEx 0 rfl).1,
    (capture_off_not_buffered cfgOffEx bEx hWriteEx 0 rfl).2.1,
    (capture_off_not_buffered cfgOffEx bEx hWriteEx 0 rfl).2.2.1⟩

/-- C8: when reading the request body fails, the middleware records the
read error first in the error list, still invokes the handler, builds
exactly one payload on the handler's normal return whose captured
request body is the readable prefix, and returns normally rather than
aborting the request. -/
theorem read_failure_degrades (cfg : Config) (b : BodySource)
    (h : List Nat → GorillaHandlerRun) (mid : Nat) (e : String)
    (hc : cfg.captureRequestBody = true) (he : b.readErr = some e)
    (hn : (h b.data).panicValue = none) :
    (gorillaMiddleware cfg b h mid).errorList = ⟨e⟩ :: (h b.data).reported ∧
    (gorillaMiddleware cfg b h mid).handlerInvoked = true ∧
    (gorillaMiddleware cfg b h mid).payloads.length = 1 ∧
    (gorillaMiddleware cfg b h mid).outcome = .returns none ∧
    (∀ p ∈ (gorillaMiddleware cfg b h mid).payloads, p.reqBody = some b.data) := by
  refine ⟨?_, ?_, ?_, ?_, ?_⟩ <;>
    simp [gorillaMiddleware, readAll, hc, he, hn]

/-- A request body whose read fails after two bytes. -/
def bErrEx : BodySource := ⟨[97, 98], some "context canceled"⟩

/-- Witness for C8: the concrete failing read is reported, the handler
still runs, one payload is built and the request completes normally. -/
theorem read_failure_degrades_witness :
    cfgEx.captureRequestBody = true ∧ bErrEx.readErr = some "context canceled" ∧
    (hWriteEx bErrEx.data).panicValue = none ∧
    (gorillaMiddleware cfgEx bErrEx hWriteEx 0).errorList =
      ⟨"context canceled"⟩ :: (hWriteEx bErrEx.data).reported ∧
    (gorillaMiddleware cfgEx bErrEx hWriteEx 0).handlerInvoked = true ∧
    (gorillaMiddleware cfgEx bErrEx hWriteEx 0).payloads.length = 1 ∧
    (gorillaMiddleware cfgEx bErrEx hWriteEx 0).outcome = .returns none :=
  ⟨rfl, rfl, rfl,
    (read_failure_degrades cfgEx bErrEx hWriteEx 0 "context canceled" rfl rfl rfl).1,
    (read_failure_degrades cfgEx bErrEx hWriteEx 0 "context canceled" rfl rfl rfl).2.1,
    (read_failure_degrades cfgEx bErrEx hWriteEx 0 "context canceled" rfl rfl rfl).2.2.1,
    (read_failure_degrades cfgEx bErrEx hWriteEx 0 "context canceled" rfl rfl rfl).2.2.2.1⟩

/-- C10: the response headers captured into the fiber payload are the
copy taken before the handler ran: every emitted payload carries exactly
the pre-handler snapshot, so a header key not present in that snapshot
is absent from the captured headers no matter what headers the handler
set during its execution. -/
theorem fiber_headers_snapshot (cfg : Config) (hdrs : List (String × List String))
    (rb sb : List Nat) (run : FiberHandlerRun) (mid : Nat) (k : String)
    (hk : hlookup k hdrs = none) :
    ∀ p ∈ (fiberMiddleware cfg hdrs rb sb run mid).payloads,
      p.respHeaders = hdrs ∧ hlookup k p.respHeaders = none := by
  intro p hp
  cases hpv : run.panicValue with
  | none =>
    simp [fiberMiddleware, hpv] at hp
    subst hp
    exact ⟨rfl, hk⟩
  | some v =>
    by_cases hv : (v.isError || v.isString) = true
    · simp [fiberMiddleware, hpv, hv] at hp
      subst hp
      exact ⟨rfl, hk⟩
    · simp [fiberMiddleware, hpv, hv] at hp

/-- A fiber handler run that sets a response header and returns. -/
def runHdrEx : FiberHandlerRun :=
  ⟨[], [("X-During", ["yes"])], 200, none, none⟩

/-- Witness for C10: with an initially empty header map and a handler
that sets "X-During", the payload's captured headers are the empty
snapshot and "X-During" is absent from them. -/
theorem fiber_headers_snapshot_witness :
    hlookup "X-During" ([] : List (String × List String)) = none ∧
    ∀ p ∈ (fiberMiddleware cfgEx [] [] [] runHdrEx 0).payloads,
      p.respHeaders = ([] : List (String × List String)) ∧
      hlookup "X-During" p.respHeaders = none :=
  ⟨rfl, fiber_headers_snapshot cfgEx [] [] [] runHdrEx 0 "X-During" rfl⟩

/-! ## Redaction idempotence -/

/-- Redacting the same path twice changes nothing the second time. -/
theorem redactPath_idem (p : List String) (v : JVal) :
    redactPath p (redactPath p v) = redactPath p v := by
  induction p generalizing v with
  | nil => rfl
  | cons k ks ih =>
    cases v with
    | jobj fields =>
      simp only [redactPath, List.map_map]
      congr 1
      refine List.map_congr_left ?_
      intro f _
      by_cases hf : f.1 = k
      · simp [Function.comp, hf, ih]
      · simp [Function.comp, hf]
    | jnull => rfl
    | jbool b => rfl
    | jnum n => rfl
    | jstr s => rfl
    | jarr xs => rfl

/-- Redactions at two paths commute. -/
theorem redactPath_comm (p q : List String) (v : JVal) :
    redactPath p (redactPath q v) = redactPath q (redactPath p v) := by
  induction p generalizing q v with
  | nil =>
    cases q with
    | nil => rfl
    | cons j js => cases v <;> rfl
  | cons k ks ih =>
    cases q with
    | nil => cases v <;> rfl
    | cons j js =>
      cases v with
      | jobj fields =>
        simp only [redactPath, List.map_map]
        congr 1
        refine List.map_congr_left ?_
        intro f _
        by_cases hk : f.1 = k <;> by_cases hj : f.1 = j
        · have hkj : k = j := hk.symm.trans hj
          subst hkj
          simp [Function.comp, hk, ih]
        · have hkj : ¬k = j := fun hh => hj (hk.trans hh)
          simp [Function.comp, hk, hj, hkj]
        · have hkj : ¬j = k := fun hh => hk (hj.trans hh)
          simp [Function.comp, hk, hj, hkj]
        · simp [Function.comp, hk, hj]
      | jnull => rfl
      | jbool b => rfl
      | jnum n => rfl
      | jstr s => rfl
      | jarr xs => rfl

/-- A single-path redaction commutes with applying a whole path set. -/
theorem redactPath_redactAll_comm (ps : List (List String)) (p : List String) (v : JVal) :
    redactPath p (redactAll ps v) = redactAll ps (redactPath p v) := by
  induction ps generalizing v with
  | nil => rfl
  | cons q qs ih =>
    simp only [redactAll, List.foldl_cons] at *
    rw [ih, redactPath_comm]

/-- Applying a path set twice equals applying it once. -/
theorem redactAll_idem (ps : List (List String)) (v : JVal) :
    redactAll ps (redactAll ps v) = redactAll ps v := by
  induction ps generalizing v with
  | nil => rfl
  | cons p qs ih =>
    simp only [redactAll, List.foldl_cons] at *
    rw [show List.foldl (fun acc r => redactPath r acc) (redactPath p v) qs
        = redactAll qs (redactPath p v) from rfl,
      ← redactPath_redactAll_comm, redactPath_idem, redactPath_redactAll_comm]
    exact ih _

/-- C9: structured-field redaction is idempotent — redacting a captured
body twice with the identical path set yields the identical result to
redacting it once, for parsed and unparseable bodies alike. -/
theorem redaction_idempotent (ps : List (List String)) (b : CapturedBody) :
    redactBody ps (redactBody ps b) = redactBody ps b := by
  cases b with
  | unparsed bs => rfl
  | parsed v => simp [redactBody, redactAll_idem]

end Monoscope
